import Mathlib

/-!
Shallow embedding of the live game clock / stat / penalty tracking engine of
the lacrosse team-management application, together with the motion-detection
reaction-time measurement of the face-off training drill.

JavaScript numbers are modelled as exact integers (`Int`) where the code only
ever holds integral values (clock seconds, scores, periods, durations), and as
exact rationals (`ℚ`) where fractional values arise (luma coefficients, mean
frame difference, `performance.now()` timestamps).
-/

namespace LaxStats

/-- Stat types, from the `StatType` enum of the types module. -/
inductive StatType where
  | goal
  | assist
  | shot
  | save
  | groundBall
  | turnover
  | causedTurnover
  | faceoffWin
  | faceoffLoss
deriving DecidableEq, Repr

/-- Penalty types, from the `PenaltyType` enum of the types module. -/
inductive PenaltyType where
  | slashing
  | tripping
  | crossCheck
  | unsportsmanlikeConduct
  | illegalBodyCheck
  | holding
  | interference
  | illegalProcedure
  | pushing
  | offsides
  | warding
  | illegalStick
deriving DecidableEq, Repr

/-- Player record (the optional linked user id is irrelevant to the tracked
properties and omitted). -/
structure Player where
  id : String
  name : String
  jerseyNumber : String
  position : String
deriving DecidableEq, Repr

/-- Team record: id, name, ordered roster. -/
structure Team where
  id : String
  name : String
  roster : List Player
deriving DecidableEq, Repr

/-- Stat event: id, acting player, team the stat was recorded for, type,
game-clock timestamp, optional assisting player (meaningful for goals). -/
structure Stat where
  id : String
  playerId : String
  teamId : String
  type : StatType
  timestamp : Int
  assistingPlayerId : Option String
deriving DecidableEq, Repr

/-- Penalty event: id, player, team, foul type, duration in seconds,
game-clock time when committed, game-clock time when released. -/
structure Penalty where
  id : String
  playerId : String
  teamId : String
  type : PenaltyType
  duration : Int
  startTime : Int
  releaseTime : Int
deriving DecidableEq, Repr

/-- Game lifecycle status. -/
inductive GameStatus where
  | scheduled
  | live
  | finished
deriving DecidableEq, Repr

/-- The running score, home and away. -/
structure Score where
  home : Int
  away : Int
deriving DecidableEq, Repr

/-- Game record, from the `Game` interface of the types module. -/
structure Game where
  id : String
  homeTeam : Team
  awayTeam : Team
  scheduledTime : String
  status : GameStatus
  score : Score
  stats : List Stat
  penalties : List Penalty
  currentPeriod : Int
  gameClock : Int
  aiSummary : Option String
deriving DecidableEq, Repr

/-- A freshly created game, from `handleAddGame` in the storage service:
status `scheduled`, score 0-0, empty stat and penalty logs, period 1,
clock preset to 720 seconds, no AI summary. -/
def handleAddGame (id : String) (homeTeam awayTeam : Team)
    (scheduledTime : String) : Game :=
  { id := id
    homeTeam := homeTeam
    awayTeam := awayTeam
    scheduledTime := scheduledTime
    status := GameStatus.scheduled
    score := { home := 0, away := 0 }
    stats := []
    penalties := []
    currentPeriod := 1
    gameClock := 720
    aiSummary := none }

/-- `handleStatAdd` from the game tracker: builds a new `Stat` stamped with the
current clock, appends it to the stat log, and, when the type is Goal,
increments the home counter if the passed team id equals the home team's id
and the away counter otherwise.  The fresh id (produced from `Date.now()` in
the source) is taken as a parameter. -/
def handleStatAdd (game : Game) (newId : String) (player : Player)
    (teamId : String) (type : StatType) (assistingPlayerId : Option String)
    (clock : Int) : Game :=
  let newStat : Stat :=
    { id := newId
      playerId := player.id
      teamId := teamId
      type := type
      timestamp := clock
      assistingPlayerId := assistingPlayerId }
  let newScore : Score :=
    if type = StatType.goal then
      if teamId = game.homeTeam.id then
        { game.score with home := game.score.home + 1 }
      else
        { game.score with away := game.score.away + 1 }
    else game.score
  { game with stats := game.stats ++ [newStat], score := newScore }

/-- Which side of the scoreboard a manual adjustment touches. -/
inductive TeamSide where
  | home
  | away
deriving DecidableEq, Repr

/-- `handleManualScoreChange` from the game tracker: clamps the chosen side's
score at zero after adding the delta; the other side is untouched. -/
def handleManualScoreChange (game : Game) (teamType : TeamSide)
    (delta : Int) : Game :=
  let newScore : Score :=
    match teamType with
    | TeamSide.home => { game.score with home := max 0 (game.score.home + delta) }
    | TeamSide.away => { game.score with away := max 0 (game.score.away + delta) }
  { game with score := newScore }

/-- `handleAddPenalty` from the game tracker: appends a penalty whose
`startTime` is the current clock and whose `releaseTime` is the current clock
minus the duration, with no clamping. -/
def handleAddPenalty (game : Game) (newId : String) (player : Player)
    (teamId : String) (penaltyType : PenaltyType) (duration : Int)
    (clock : Int) : Game :=
  let newPenalty : Penalty :=
    { id := newId
      playerId := player.id
      teamId := teamId
      type := penaltyType
      duration := duration
      startTime := clock
      releaseTime := clock - duration }
  { game with penalties := game.penalties ++ [newPenalty] }

/-- `handleEndGame` from the game tracker: marks the game finished and zeroes
the stored game clock. -/
def handleEndGame (game : Game) : Game :=
  { game with status := GameStatus.finished, gameClock := 0 }

/-- Insert a penalty into a list sorted ascending by release time. -/
def insertByRelease (p : Penalty) : List Penalty → List Penalty
  | [] => [p]
  | q :: qs =>
    if p.releaseTime ≤ q.releaseTime then p :: q :: qs
    else q :: insertByRelease p qs

/-- Sort penalties ascending by release time (the comparator
`a.releaseTime - b.releaseTime` of the source). -/
def sortByRelease : List Penalty → List Penalty
  | [] => []
  | p :: ps => insertByRelease p (sortByRelease ps)

/-- The derived `activePenalties` view computed inside the `PenaltyBox`
component: keep the penalties whose release time is strictly below the current
clock, sorted soonest-to-release first.  The source filter is
`clock > p.releaseTime`; there is no comparison against `startTime`. -/
def activePenalties (penalties : List Penalty) (clock : Int) : List Penalty :=
  sortByRelease (penalties.filter (fun p => decide (p.releaseTime < clock)))

/-! ### Clock controller -/

/-- State of the game clock inside the tracker: the `isClockRunning` flag and
the remaining seconds. -/
structure ClockState where
  running : Bool
  remaining : Int
deriving DecidableEq, Repr

/-- Audible cues emitted by the clock interval callback: a spoken countdown of
the new remaining value, or the terminal buzzer. -/
inductive Cue where
  | countdown (n : Int)
  | buzzer
deriving DecidableEq, Repr

/-- One firing of the clock interval callback.  The interval is installed only
while `isClockRunning && clock > 0`, so with the clock paused or at zero the
tick does nothing.  Otherwise the clock drops by one; the new value is spoken
when it lies in [1,10], and the buzzer sounds when it reaches 0. -/
def tick (s : ClockState) : ClockState × List Cue :=
  if s.running = true ∧ 0 < s.remaining then
    let newClock := s.remaining - 1
    let cues :=
      if newClock ≤ 10 ∧ 0 < newClock then [Cue.countdown newClock]
      else if newClock = 0 then [Cue.buzzer]
      else []
    ({ s with remaining := newClock }, cues)
  else (s, [])

/-- Iterate `tick` a given number of times, collecting all emitted cues in
order. -/
def runTicks : Nat → ClockState → ClockState × List Cue
  | 0, s => (s, [])
  | n + 1, s =>
    let step1 := tick s
    let rest := runTicks n step1.1
    (rest.1, step1.2 ++ rest.2)

/-- `adjustClock` from the game tracker: add the delta and clamp at zero. -/
def adjustClock (remaining : Int) (seconds : Int) : Int :=
  max 0 (remaining + seconds)

/-- The clock operations reachable from the tracker UI: an interval tick, a
manual adjustment, and the reset button (which sets the clock to the fixed
720-second period length). -/
inductive ClockOp where
  | tick
  | adjust (delta : Int)
  | reset
deriving DecidableEq, Repr

/-- Apply one clock operation to the remaining-seconds value.  A tick is
enabled only while the remaining value is positive (the interval guard);
`adjust` clamps at zero; `reset` restores 720. -/
def applyClockOp (remaining : Int) : ClockOp → Int
  | ClockOp.tick => if 0 < remaining then remaining - 1 else remaining
  | ClockOp.adjust delta => adjustClock remaining delta
  | ClockOp.reset => 720

/-- Apply a sequence of clock operations in order. -/
def applyClockOps (remaining : Int) (ops : List ClockOp) : Int :=
  ops.foldl applyClockOp remaining

/-! ### Aggregation -/

/-- Increment one cell of the per-player, per-stat-type count table. -/
def bump (m : String → StatType → Nat) (playerId : String)
    (t : StatType) : String → StatType → Nat :=
  fun q u => if q = playerId ∧ u = t then m q u + 1 else m q u

/-- Fold one stat into the count table, as in the `playerStats` memo of the
game tracker: the acting player's count of the stat's own type grows by one,
and when the stat is a goal with an assisting player recorded, that player's
Assist count grows by one. -/
def applyStat (m : String → StatType → Nat) (s : Stat) :
    String → StatType → Nat :=
  let m1 := bump m s.playerId s.type
  if s.type = StatType.goal then
    match s.assistingPlayerId with
    | some apid => bump m1 apid StatType.assist
    | none => m1
  else m1

/-- `playerStats` from the game tracker: a single pass over the stat log
building the per-player count table (a missing entry reads as zero, matching
the `|| 0` lookups of the source). -/
def playerStats (game : Game) : String → StatType → Nat :=
  game.stats.foldl applyStat (fun _ _ => 0)

/-- `teamTotals` from the `StatsTable` component: for a stat type, the sum of
the per-player counts over the team's roster. -/
def teamTotals (team : Team) (stats : String → StatType → Nat)
    (t : StatType) : Nat :=
  team.roster.foldl (fun sum p => sum + stats p.id t) 0

/-! ### Tracker state machine -/

/-- The mutable state of the `GameTracker` screen that the tracked properties
depend on: the game record, the local clock value, the running flag, and
whether the current user is a coach or admin (which gates the manual score
buttons). -/
structure TrackerState where
  game : Game
  clock : Int
  isClockRunning : Bool
  isCoachOrAdmin : Bool
deriving DecidableEq, Repr

/-- The operations the `GameTracker` screen exposes.  Fresh ids and the AI
summary text are parameters of the corresponding events. -/
inductive TrackerEvent where
  | statAdd (newId : String) (player : Player) (teamId : String)
      (type : StatType) (assistingPlayerId : Option String)
  | manualScore (side : TeamSide) (delta : Int)
  | toggleClock
  | periodDec
  | periodInc
  | resetClock
  | adjustClockBy (delta : Int)
  | clockTick
  | endGame
  | addPenalty (newId : String) (player : Player) (teamId : String)
      (penaltyType : PenaltyType) (duration : Int)
  | generateSummary (summary : String)
deriving DecidableEq, Repr

/-- Whether an event is reachable from the rendered UI, read off the render
guards of the `GameTracker` component: the stat-entry panel, the roster
columns (and hence player selection, which penalty entry requires), the
End Game button, and the manual score buttons render only while the game is
not finished; the manual score buttons additionally require a coach or admin;
the clock interval fires only while running with a positive clock; the
Generate-Summary button renders only on a finished game with no summary yet;
the clock and period controls are always rendered. -/
def available (s : TrackerState) : TrackerEvent → Bool
  | TrackerEvent.statAdd _ _ _ _ _ => decide (s.game.status ≠ GameStatus.finished)
  | TrackerEvent.manualScore _ _ =>
      s.isCoachOrAdmin && decide (s.game.status ≠ GameStatus.finished)
  | TrackerEvent.toggleClock => true
  | TrackerEvent.periodDec => true
  | TrackerEvent.periodInc => true
  | TrackerEvent.resetClock => true
  | TrackerEvent.adjustClockBy _ => true
  | TrackerEvent.clockTick => s.isClockRunning && decide (0 < s.clock)
  | TrackerEvent.endGame => decide (s.game.status ≠ GameStatus.finished)
  | TrackerEvent.addPenalty _ _ _ _ _ => decide (s.game.status ≠ GameStatus.finished)
  | TrackerEvent.generateSummary _ =>
      decide (s.game.status = GameStatus.finished) && decide (s.game.aiSummary = none)

/-- Apply one tracker event.  Events that change the local clock also run the
synchronization effect that copies the clock into `game.gameClock` (the
`useEffect` on `clock`). -/
def step (s : TrackerState) : TrackerEvent → TrackerState
  | TrackerEvent.statAdd newId player teamId t assist =>
      { s with game := handleStatAdd s.game newId player teamId t assist s.clock }
  | TrackerEvent.manualScore side delta =>
      { s with game := handleManualScoreChange s.game side delta }
  | TrackerEvent.toggleClock => { s with isClockRunning := !s.isClockRunning }
  | TrackerEvent.periodDec =>
      { s with game :=
          { s.game with currentPeriod := max 1 (s.game.currentPeriod - 1) } }
  | TrackerEvent.periodInc =>
      { s with game := { s.game with currentPeriod := s.game.currentPeriod + 1 } }
  | TrackerEvent.resetClock =>
      { s with clock := 720, game := { s.game with gameClock := 720 } }
  | TrackerEvent.adjustClockBy delta =>
      let c := adjustClock s.clock delta
      { s with clock := c, game := { s.game with gameClock := c } }
  | TrackerEvent.clockTick =>
      let c := s.clock - 1
      { s with clock := c, game := { s.game with gameClock := c } }
  | TrackerEvent.endGame =>
      { s with isClockRunning := false, game := handleEndGame s.game }
  | TrackerEvent.addPenalty newId player teamId penaltyType duration =>
      { s with game :=
          handleAddPenalty s.game newId player teamId penaltyType duration s.clock }
  | TrackerEvent.generateSummary summary =>
      { s with game := { s.game with aiSummary := some summary } }

/-! ### Motion detection (face-off trainer) -/

/-- Motion sensitivity constant of the face-off trainer. -/
def SENSITIVITY_THRESHOLD : ℚ := 10

/-- One RGBA pixel of a captured frame (each channel an 8-bit value). -/
structure Pixel where
  r : Nat
  g : Nat
  b : Nat
  alpha : Nat
deriving DecidableEq, Repr

/-- `toGrayscale` from `startMotionDetection`: per pixel,
`0.299 * R + 0.587 * G + 0.114 * B`, stored into a `Uint8Array` (which
truncates the fractional part; channel values are at most 255, so the result
is already within 8 bits). -/
def toGrayscale (frame : List Pixel) : List Nat :=
  frame.map (fun p => (299 * p.r + 587 * p.g + 114 * p.b) / 1000)

/-- Sum of absolute per-pixel differences between two grayscale frames. -/
def absDiffSum (ref cur : List Nat) : Nat :=
  (List.zipWith (fun a b => ((a : Int) - (b : Int)).natAbs) ref cur).sum

/-- The `averageDiff` of the detection callback: total absolute difference
divided by the pixel count. -/
def averageDiff (ref cur : List Nat) : ℚ :=
  (absDiffSum ref cur : ℚ) / (ref.length : ℚ)

/-- A frame delivered by an animation-frame callback, together with the
`performance.now()` timestamp at which it would be processed. -/
structure FrameSample where
  frame : List Pixel
  now : ℚ
deriving DecidableEq, Repr

/-- `Math.round` on an exact rational. -/
def jsRound (x : ℚ) : Int := ⌊x + 1 / 2⌋

/-- The `detect` polling loop: process the delivered frames in order; on the
first frame whose mean absolute luma difference against the reference exceeds
the sensitivity threshold, stop with the rounded elapsed time; otherwise
re-arm the animation-frame callback (so a finite run of frames none of which
exceeds the threshold produces no result). -/
def detect (referenceGrayscale : List Nat) (startTime : ℚ) :
    List FrameSample → Option Int
  | [] => none
  | f :: fs =>
    if SENSITIVITY_THRESHOLD < averageDiff referenceGrayscale (toGrayscale f.frame)
    then some (jsRound (f.now - startTime))
    else detect referenceGrayscale startTime fs

/-- `startMotionDetection` from the face-off trainer, abstracted over the
reference frame, the measurement start time, and the stream of frames the
animation-frame callbacks deliver: grayscale the reference, then run the
detection loop. -/
def startMotionDetection (referenceFrame : List Pixel) (startTime : ℚ)
    (samples : List FrameSample) : Option Int :=
  detect (toGrayscale referenceFrame) startTime samples

/-! ### Sequences of stat recordings -/

/-- The arguments of one `handleStatAdd` call: fresh id, acting player, team
the stat is recorded for, stat type, optional assisting player, and the clock
value at the moment of the call. -/
structure RecordInput where
  newId : String
  player : Player
  teamId : String
  type : StatType
  assistingPlayerId : Option String
  clock : Int
deriving DecidableEq, Repr

/-- Apply one `handleStatAdd` call described by a `RecordInput`. -/
def applyRecord (game : Game) (inp : RecordInput) : Game :=
  handleStatAdd game inp.newId inp.player inp.teamId inp.type
    inp.assistingPlayerId inp.clock

/-- Apply a sequence of `handleStatAdd` calls in order. -/
def recordAll (game : Game) (l : List RecordInput) : Game :=
  l.foldl applyRecord game

/-- The stat entry that `handleStatAdd` appends for a given input. -/
def inputStat (inp : RecordInput) : Stat :=
  { id := inp.newId
    playerId := inp.player.id
    teamId := inp.teamId
    type := inp.type
    timestamp := inp.clock
    assistingPlayerId := inp.assistingPlayerId }

/-! ### Concrete fixtures -/

/-- A concrete home-roster player. -/
def playerH : Player := { id := "ph", name := "Alice", jerseyNumber := "1", position := "A" }

/-- A concrete away-roster player. -/
def playerA : Player := { id := "pa", name := "Bob", jerseyNumber := "2", position := "M" }

/-- A concrete home team. -/
def teamH : Team := { id := "h", name := "Home", roster := [playerH] }

/-- A concrete away team. -/
def teamA : Team := { id := "a", name := "Away", roster := [playerA] }

/-- A concrete freshly created game. -/
def g0 : Game := handleAddGame "g1" teamH teamA "2026-01-01"

/-- A concrete finished game. -/
def gFinished : Game :=
  { g0 with status := GameStatus.finished, score := { home := 3, away := 2 }, gameClock := 0 }

/-- A concrete tracker state sitting on a finished game, viewed by a coach. -/
def sFinished : TrackerState :=
  { game := gFinished, clock := 0, isClockRunning := false, isCoachOrAdmin := true }

/-- A concrete 60-second penalty committed at clock 700, whose release time is
700 − 60 = 640 as `handleAddPenalty` computes it. -/
def pen60 : Penalty :=
  { id := "p1", playerId := "ph", teamId := "h", type := PenaltyType.slashing
    duration := 60, startTime := 700, releaseTime := 640 }

/-- A concrete sequence of two stat recordings: a home goal and an away shot. -/
def sampleInputs : List RecordInput :=
  [ { newId := "s1", player := playerH, teamId := "h", type := StatType.goal,
      assistingPlayerId := none, clock := 650 },
    { newId := "s2", player := playerA, teamId := "a", type := StatType.shot,
      assistingPlayerId := none, clock := 640 } ]

/-! ## Theorems -/

/-- Membership is preserved by insertion into a release-sorted list. -/
theorem mem_insertByRelease (p q : Penalty) (l : List Penalty) :
    q ∈ insertByRelease p l ↔ q = p ∨ q ∈ l := by
  induction l with
  | nil => simp [insertByRelease]
  | cons x xs ih =>
      simp only [insertByRelease]
      split
      · simp [List.mem_cons]
      · simp [List.mem_cons, ih]
        tauto

/-- Sorting by release time does not change membership. -/
theorem mem_sortByRelease (q : Penalty) (l : List Penalty) :
    q ∈ sortByRelease l ↔ q ∈ l := by
  induction l with
  | nil => simp [sortByRelease]
  | cons x xs ih => simp [sortByRelease, mem_insertByRelease, ih]

/-- C1 (amended): the `activePenalties` view contains a penalty if and only if
it is in the penalty list and its release time is strictly below the clock —
there is no upper-bound comparison against `startTime`.  Consequently the
60-second penalty starting at clock 700 (release 640) is in the view at every
clock above 640, including 701, and absent at 640. -/
theorem activePenalties_mem :
    (∀ (ps : List Penalty) (c : Int) (p : Penalty),
        p ∈ activePenalties ps c ↔ p ∈ ps ∧ p.releaseTime < c) ∧
    (pen60 ∈ activePenalties [pen60] 641 ∧
     pen60 ∈ activePenalties [pen60] 700 ∧
     pen60 ∈ activePenalties [pen60] 701 ∧
     pen60 ∉ activePenalties [pen60] 640) := by
  constructor
  · intro ps c p
    simp [activePenalties, mem_sortByRelease, List.mem_filter]
  · exact ⟨by decide, by decide, by decide, by decide⟩

/-- C1 counterexample: the 60-second penalty starting at clock 700 IS in the
`activePenalties` view at clock 701, although 701 is above its `startTime`,
contradicting the claimed `releaseTime < clock ≤ startTime` characterization
(which demands absence at 701). -/
theorem activePenalties_cex :
    pen60 ∈ activePenalties [pen60] 701 ∧
    ¬(pen60.releaseTime < 701 ∧ (701 : Int) ≤ pen60.startTime) := by
  decide

/-- A tick of a running clock with positive remaining time. -/
theorem tick_pos (r : Int) (h : 0 < r) :
    tick ⟨true, r⟩ =
      (⟨true, r - 1⟩,
        if r - 1 ≤ 10 ∧ 0 < r - 1 then [Cue.countdown (r - 1)]
        else if r - 1 = 0 then [Cue.buzzer] else []) := by
  simp [tick, h]

/-- Ticking a running clock down from `n` reaches zero and sounds the buzzer
exactly once (for positive `n`). -/
theorem runTicks_self (n : Nat) :
    (runTicks n ⟨true, (n : Int)⟩).1 = ⟨true, 0⟩ ∧
    (runTicks n ⟨true, (n : Int)⟩).2.count Cue.buzzer =
      if n = 0 then 0 else 1 := by
  induction n with
  | zero => simp [runTicks]
  | succ k ih =>
      have hpos : (0 : Int) < ((k + 1 : Nat) : Int) := by exact_mod_cast Nat.succ_pos k
      have hsub : ((k + 1 : Nat) : Int) - 1 = (k : Int) := by push_cast; ring
      have htick := tick_pos ((k + 1 : Nat) : Int) hpos
      rw [hsub] at htick
      constructor
      · simp only [runTicks, htick]
        exact ih.1
      · simp only [runTicks, htick, List.count_append]
        rw [ih.2]
        rcases Nat.eq_zero_or_pos k with hk | hk
        · subst hk; decide
        · have h1 : ¬((k : Int) = 0) := by exact_mod_cast Nat.pos_iff_ne_zero.mp hk
          have h2 : ¬(k = 0) := Nat.pos_iff_ne_zero.mp hk
          have h3i : ((k : Int) ≤ 10 ∧ 0 < (k : Int)) ↔ k ≤ 10 := by
            constructor
            · intro h; exact_mod_cast h.1
            · intro h; exact ⟨by exact_mod_cast h, by exact_mod_cast hk⟩
          by_cases h4 : k ≤ 10
          · simp [h3i, h4, h2, hk, List.count_cons, List.count_nil]
          · simp [h3i, h4, h1, h2, hk]

/-- C4: each tick of the running clock with positive remaining time decrements
the remaining value by exactly one; the spoken countdown cue for the new value
is emitted exactly when that value lies in [1,10]; the buzzer sounds exactly
on the tick that reaches zero; a paused or expired clock does not tick; and
720 ticks from a running clock at 720 reach zero with exactly one buzzer
emission. -/
theorem clock_tick_spec :
    (∀ r : Int, 0 < r →
        (tick ⟨true, r⟩).1 = ⟨true, r - 1⟩ ∧
        ((Cue.countdown (r - 1)) ∈ (tick ⟨true, r⟩).2 ↔ 1 ≤ r - 1 ∧ r - 1 ≤ 10) ∧
        (tick ⟨true, r⟩).2.count Cue.buzzer = (if r = 1 then 1 else 0)) ∧
    (∀ s : ClockState, ¬(s.running = true ∧ 0 < s.remaining) → tick s = (s, [])) ∧
    ((runTicks 720 ⟨true, 720⟩).1.remaining = 0 ∧
     (runTicks 720 ⟨true, 720⟩).2.count Cue.buzzer = 1) := by
  refine ⟨?_, ?_, ?_⟩
  · intro r h
    rw [tick_pos r h]
    refine ⟨rfl, ?_, ?_⟩
    · split_ifs with h1 <;> simp <;> omega
    · split_ifs with h1 h2 h3 <;> simp_all <;> omega
  · intro s h
    simp [tick, h]
  · have h720 := runTicks_self 720
    norm_num at h720
    exact ⟨by rw [h720.1], h720.2⟩

/-- C4 witness: the tick at remaining 5 behaves as `clock_tick_spec` states. -/
theorem clock_tick_spec_witness :
    (tick ⟨true, 5⟩).1 = ⟨true, 4⟩ ∧
    ((Cue.countdown 4) ∈ (tick ⟨true, 5⟩).2 ↔ 1 ≤ (4 : Int) ∧ (4 : Int) ≤ 10) ∧
    (tick ⟨true, 5⟩).2.count Cue.buzzer = 0 := by
  have h := clock_tick_spec.1 5 (by norm_num)
  norm_num at h ⊢
  exact h

/-- Every single clock operation preserves non-negativity of the remaining
time. -/
theorem applyClockOp_nonneg (r : Int) (op : ClockOp) (h : 0 ≤ r) :
    0 ≤ applyClockOp r op := by
  cases op <;> simp [applyClockOp, adjustClock] <;> omega

/-- C5: under any sequence of tick, adjust, and reset operations starting from
a non-negative remaining value, the remaining value never becomes negative;
and `adjust(-10)` at remaining 5 yields exactly 0. -/
theorem clock_nonneg_spec :
    (∀ (ops : List ClockOp) (r : Int), 0 ≤ r → 0 ≤ applyClockOps r ops) ∧
    applyClockOp 5 (ClockOp.adjust (-10)) = 0 := by
  constructor
  · intro ops
    induction ops with
    | nil => intro r h; simpa [applyClockOps] using h
    | cons op ops ih =>
        intro r h
        simpa [applyClockOps] using ih (applyClockOp r op) (applyClockOp_nonneg r op h)
  · decide

/-- C5 witness: the invariant instantiated on a concrete operation list. -/
theorem clock_nonneg_spec_witness :
    (0 : Int) ≤ 5 ∧ 0 ≤ applyClockOps 5 [ClockOp.adjust (-10), ClockOp.tick] :=
  ⟨by norm_num, clock_nonneg_spec.1 [ClockOp.adjust (-10), ClockOp.tick] 5 (by norm_num)⟩

/-- The stat log after `handleStatAdd` is the old log with one new entry
appended. -/
theorem handleStatAdd_stats (g : Game) (newId : String) (p : Player)
    (tid : String) (t : StatType) (a : Option String) (c : Int) :
    (handleStatAdd g newId p tid t a c).stats =
      g.stats ++ [{ id := newId, playerId := p.id, teamId := tid, type := t,
                    timestamp := c, assistingPlayerId := a }] := rfl

/-- The score after `handleStatAdd`: a goal increments the side picked by the
home-team id comparison; every other type leaves the score unchanged. -/
theorem handleStatAdd_score (g : Game) (newId : String) (p : Player)
    (tid : String) (t : StatType) (a : Option String) (c : Int) :
    (handleStatAdd g newId p tid t a c).score =
      if t = StatType.goal then
        (if tid = g.homeTeam.id then
          { home := g.score.home + 1, away := g.score.away }
        else
          { home := g.score.home, away := g.score.away + 1 })
      else g.score := by
  unfold handleStatAdd
  split_ifs with hx hy <;> rfl

/-- Recording stats never changes the home team. -/
theorem recordAll_homeTeam (l : List RecordInput) (g : Game) :
    (recordAll g l).homeTeam = g.homeTeam := by
  induction l generalizing g with
  | nil => rfl
  | cons inp l ih => simpa [recordAll, List.foldl_cons, applyRecord] using ih _

/-- The stat log after a sequence of recordings is the old log followed by the
corresponding new entries in order. -/
theorem recordAll_stats (l : List RecordInput) (g : Game) :
    (recordAll g l).stats = g.stats ++ l.map inputStat := by
  induction l generalizing g with
  | nil => simp [recordAll]
  | cons inp l ih =>
      have h1 : recordAll g (inp :: l) = recordAll (applyRecord g inp) l := rfl
      rw [h1, ih (applyRecord g inp)]
      simp [applyRecord, handleStatAdd_stats, inputStat]

/-- The home score grows by the number of recorded goals whose team id equals
the home team's id. -/
theorem recordAll_score_home (l : List RecordInput) (g : Game) :
    (recordAll g l).score.home =
      g.score.home +
        (l.countP (fun inp =>
          decide (inp.type = StatType.goal ∧ inp.teamId = g.homeTeam.id)) : Int) := by
  induction l generalizing g with
  | nil => simp [recordAll]
  | cons inp l ih =>
      have h1 : recordAll g (inp :: l) = recordAll (applyRecord g inp) l := rfl
      rw [h1, ih (applyRecord g inp)]
      have hht : (applyRecord g inp).homeTeam = g.homeTeam := rfl
      rw [hht]
      have hsc : (applyRecord g inp).score.home =
          g.score.home +
            (if inp.type = StatType.goal ∧ inp.teamId = g.homeTeam.id then 1 else 0) := by
        unfold applyRecord
        rw [handleStatAdd_score]
        split_ifs with hx hy hz <;> simp_all
      rw [hsc, List.countP_cons]
      by_cases hP : inp.type = StatType.goal ∧ inp.teamId = g.homeTeam.id
      · simp only [hP, decide_eq_true_eq, if_true, decide_True]
        push_cast
        ring
      · simp [hP]

/-- The away score grows by the number of recorded goals whose team id is not
the home team's id. -/
theorem recordAll_score_away (l : List RecordInput) (g : Game) :
    (recordAll g l).score.away =
      g.score.away +
        (l.countP (fun inp =>
          decide (inp.type = StatType.goal ∧ ¬(inp.teamId = g.homeTeam.id))) : Int) := by
  induction l generalizing g with
  | nil => simp [recordAll]
  | cons inp l ih =>
      have h1 : recordAll g (inp :: l) = recordAll (applyRecord g inp) l := rfl
      rw [h1, ih (applyRecord g inp)]
      have hht : (applyRecord g inp).homeTeam = g.homeTeam := rfl
      rw [hht]
      have hsc : (applyRecord g inp).score.away =
          g.score.away +
            (if inp.type = StatType.goal ∧ ¬(inp.teamId = g.homeTeam.id) then 1 else 0) := by
        unfold applyRecord
        rw [handleStatAdd_score]
        split_ifs with hx hy hz <;> simp_all
      rw [hsc, List.countP_cons]
      by_cases hP : inp.type = StatType.goal ∧ ¬(inp.teamId = g.homeTeam.id)
      · simp only [hP, decide_eq_true_eq, if_true, decide_True]
        push_cast
        ring
      · simp [hP]

/-- C2: starting from a freshly created game, after any sequence of
`handleStatAdd` calls in which each player belongs to the team passed in and
each team is one of the game's two (distinct) teams, the home score equals the
number of Goal stats recorded for the home team and the away score the number
recorded for the away team; moreover each Goal recording increments exactly
the side selected by the home-id comparison by one, and every non-Goal
recording leaves the score unchanged. -/
theorem recordStat_score_invariant :
    (∀ (gid sched : String) (home away : Team) (l : List RecordInput),
        home.id ≠ away.id →
        (∀ inp ∈ l, inp.teamId = home.id ∨ inp.teamId = away.id) →
        (∀ inp ∈ l, (inp.teamId = home.id → inp.player ∈ home.roster) ∧
                    (inp.teamId = away.id → inp.player ∈ away.roster)) →
        (recordAll (handleAddGame gid home away sched) l).score.home =
          ((recordAll (handleAddGame gid home away sched) l).stats.countP
            (fun s => decide (s.type = StatType.goal ∧ s.teamId = home.id)) : Int) ∧
        (recordAll (handleAddGame gid home away sched) l).score.away =
          ((recordAll (handleAddGame gid home away sched) l).stats.countP
            (fun s => decide (s.type = StatType.goal ∧ s.teamId = away.id)) : Int)) ∧
    (∀ (g : Game) (newId : String) (p : Player) (tid : String)
        (a : Option String) (c : Int),
        (handleStatAdd g newId p tid StatType.goal a c).score =
          (if tid = g.homeTeam.id then
            { home := g.score.home + 1, away := g.score.away }
          else { home := g.score.home, away := g.score.away + 1 })) ∧
    (∀ (g : Game) (newId : String) (p : Player) (tid : String) (t : StatType)
        (a : Option String) (c : Int), t ≠ StatType.goal →
        (handleStatAdd g newId p tid t a c).score = g.score) := by
  refine ⟨?_, ?_, ?_⟩
  · intro gid sched home away l hne hteam hplayer
    constructor
    · rw [recordAll_score_home l (handleAddGame gid home away sched),
          recordAll_stats l (handleAddGame gid home away sched)]
      have hs : (handleAddGame gid home away sched).stats = [] := rfl
      have h0 : (handleAddGame gid home away sched).score.home = 0 := rfl
      have hh : (handleAddGame gid home away sched).homeTeam = home := rfl
      rw [hs, List.nil_append, h0, hh, List.countP_map, zero_add]
      rfl
    · rw [recordAll_score_away l (handleAddGame gid home away sched),
          recordAll_stats l (handleAddGame gid home away sched)]
      have hs : (handleAddGame gid home away sched).stats = [] := rfl
      have h0 : (handleAddGame gid home away sched).score.away = 0 := rfl
      have hh : (handleAddGame gid home away sched).homeTeam = home := rfl
      rw [hs, List.nil_append, h0, hh, List.countP_map, zero_add]
      have hcong : l.countP
            (fun inp => decide (inp.type = StatType.goal ∧ ¬(inp.teamId = home.id))) =
          l.countP
            (fun inp => decide (inp.type = StatType.goal ∧ inp.teamId = away.id)) := by
        apply List.countP_congr
        intro inp hmem
        rcases hteam inp hmem with h | h
        · simp [h, hne]
        · have hne2 : away.id ≠ home.id := fun hcontra => hne hcontra.symm
          simp [h, hne2]
      rw [hcong]
      rfl
  · intro g newId p tid a c
    rw [handleStatAdd_score]
    simp
  · intro g newId p tid t a c ht
    rw [handleStatAdd_score]
    simp [ht]

/-- C2 witness: the invariant instantiated on a concrete fresh game and a
concrete two-recording sequence. -/
theorem recordStat_score_invariant_witness :
    (recordAll (handleAddGame "g1" teamH teamA "2026-01-01") sampleInputs).score.home =
      ((recordAll (handleAddGame "g1" teamH teamA "2026-01-01") sampleInputs).stats.countP
        (fun s => decide (s.type = StatType.goal ∧ s.teamId = teamH.id)) : Int) ∧
    (recordAll (handleAddGame "g1" teamH teamA "2026-01-01") sampleInputs).score.away =
      ((recordAll (handleAddGame "g1" teamH teamA "2026-01-01") sampleInputs).stats.countP
        (fun s => decide (s.type = StatType.goal ∧ s.teamId = teamA.id)) : Int) :=
  recordStat_score_invariant.1 "g1" "2026-01-01" teamH teamA sampleInputs
    (by decide) (by decide) (by decide)

/-- Pointwise effect of one `bump` on the count table. -/
theorem bump_apply (mm : String → StatType → Nat) (pl : String) (ty : StatType)
    (q : String) (u : StatType) :
    bump mm pl ty q u = mm q u + (if q = pl ∧ u = ty then 1 else 0) := by
  unfold bump
  split_ifs
  · omega
  · omega

/-- Pointwise effect of folding one stat into the count table: one credit for
the acting player's own type, and one Assist credit for the assisting player
of a goal. -/
theorem applyStat_apply (m : String → StatType → Nat) (s : Stat)
    (pid : String) (t : StatType) :
    applyStat m s pid t =
      m pid t + (if s.playerId = pid ∧ s.type = t then 1 else 0) +
        (if s.type = StatType.goal ∧ s.assistingPlayerId = some pid ∧
            t = StatType.assist then 1 else 0) := by
  have e1 : (pid = s.playerId ∧ t = s.type) ↔ (s.playerId = pid ∧ s.type = t) :=
    ⟨fun h => ⟨h.1.symm, h.2.symm⟩, fun h => ⟨h.1.symm, h.2.symm⟩⟩
  simp only [applyStat]
  by_cases hg : s.type = StatType.goal
  · rw [if_pos hg]
    cases ha : s.assistingPlayerId with
    | none =>
        show bump m s.playerId s.type pid t = _
        rw [bump_apply, if_congr e1 rfl rfl]
        have e3 : ¬(s.type = StatType.goal ∧ (none : Option String) = some pid ∧
            t = StatType.assist) := by
          rintro ⟨-, hcontra, -⟩
          exact Option.noConfusion hcontra
        rw [if_neg e3, Nat.add_zero]
    | some apid =>
        show bump (bump m s.playerId s.type) apid StatType.assist pid t = _
        rw [bump_apply, bump_apply, if_congr e1 rfl rfl]
        have e2 : (pid = apid ∧ t = StatType.assist) ↔
            (s.type = StatType.goal ∧ (some apid : Option String) = some pid ∧
              t = StatType.assist) := by
          constructor
          · rintro ⟨h1, h2⟩
            exact ⟨hg, by rw [h1], h2⟩
          · rintro ⟨-, h1, h2⟩
            exact ⟨(Option.some.inj h1).symm, h2⟩
        rw [if_congr e2 rfl rfl]
  · rw [if_neg hg, bump_apply, if_congr e1 rfl rfl]
    have e3 : ¬(s.type = StatType.goal ∧ s.assistingPlayerId = some pid ∧
        t = StatType.assist) := fun h => hg h.1
    rw [if_neg e3, Nat.add_zero]

/-- Closed form of the stat-log fold: any cell of the resulting count table is
the initial value plus the own-type count plus (for the Assist column) the
assisted-goal count. -/
theorem playerStats_foldl (stats : List Stat) (m : String → StatType → Nat)
    (pid : String) (t : StatType) :
    (stats.foldl applyStat m) pid t =
      m pid t + stats.countP (fun s => decide (s.playerId = pid ∧ s.type = t)) +
        (if t = StatType.assist then
          stats.countP (fun s =>
            decide (s.type = StatType.goal ∧ s.assistingPlayerId = some pid))
         else 0) := by
  induction stats generalizing m with
  | nil => simp
  | cons s rest ih =>
      rw [List.foldl_cons, ih (applyStat m s), applyStat_apply,
        List.countP_cons, List.countP_cons]
      by_cases ht : t = StatType.assist
      · by_cases h1 : s.playerId = pid ∧ s.type = t
        · by_cases h2 : s.type = StatType.goal ∧ s.assistingPlayerId = some pid
          · simp only [ht, h1, h2, if_true, decide_True, and_true, true_and]
            simp [h1.1, h1.2, h2.1, h2.2]
            all_goals omega
          · simp only [ht, if_true]
            simp [h1, h2]
            all_goals omega
        · by_cases h2 : s.type = StatType.goal ∧ s.assistingPlayerId = some pid
          · simp only [ht, if_true]
            simp [h1, h2]
            all_goals omega
          · simp only [ht, if_true]
            simp [h1, h2]
            all_goals omega
      · by_cases h1 : s.playerId = pid ∧ s.type = t
        · simp only [ht, if_false]
          simp [h1, ht]
          all_goals omega
        · simp only [ht, if_false]
          simp [h1, ht]

/-- A left fold accumulating additions equals the accumulator plus the mapped
sum. -/
theorem foldl_add_map_sum {α : Type} (f : α → Nat) (l : List α) (acc : Nat) :
    l.foldl (fun sum p => sum + f p) acc = acc + (l.map f).sum := by
  induction l generalizing acc with
  | nil => simp
  | cons x xs ih => simp [List.foldl_cons, ih, Nat.add_assoc]

/-- C6: for every player id and stat type, the single-pass aggregation gives a
count equal to the number of stats of that type acted by that player, plus —
for the Assist column only — one credit per goal naming the player as
assisting (independent of the player's own goals); and the team totals are
the sums of the per-player counts over the roster. -/
theorem playerStats_spec :
    (∀ (g : Game) (pid : String) (t : StatType),
        playerStats g pid t =
          g.stats.countP (fun s => decide (s.playerId = pid ∧ s.type = t)) +
            (if t = StatType.assist then
              g.stats.countP (fun s =>
                decide (s.type = StatType.goal ∧ s.assistingPlayerId = some pid))
             else 0)) ∧
    (∀ (team : Team) (stats : String → StatType → Nat) (t : StatType),
        teamTotals team stats t = (team.roster.map (fun p => stats p.id t)).sum) := by
  constructor
  · intro g pid t
    unfold playerStats
    rw [playerStats_foldl]
    simp
  · intro team stats t
    unfold teamTotals
    rw [foldl_add_map_sum]
    simp

/-- C3 counterexample: on a concrete finished game the period-increment
control is still reachable and changes `currentPeriod`, contradicting the
claim that every reachable operation leaves a finished game unchanged except
for the AI summary. -/
theorem finished_game_mutable_cex :
    sFinished.game.status = GameStatus.finished ∧
    available sFinished TrackerEvent.periodInc = true ∧
    (step sFinished TrackerEvent.periodInc).game.currentPeriod ≠
      sFinished.game.currentPeriod := by
  refine ⟨rfl, rfl, ?_⟩
  decide

/-- C3 (amended): once a game is finished, the operations that touch score,
stat log, penalty log, or status are no longer reachable, so every reachable
operation leaves those four components unchanged; however the clock and
period controls remain reachable and may still change `gameClock` and
`currentPeriod`, and generate-summary sets the AI summary. -/
theorem finished_game_frame (s : TrackerState) (e : TrackerEvent)
    (hfin : s.game.status = GameStatus.finished)
    (hav : available s e = true) :
    (step s e).game.score = s.game.score ∧
    (step s e).game.stats = s.game.stats ∧
    (step s e).game.penalties = s.game.penalties ∧
    (step s e).game.status = GameStatus.finished := by
  cases e with
  | statAdd newId player teamId t assist =>
      simp [available, hfin] at hav
  | manualScore side delta =>
      simp [available, hfin] at hav
  | toggleClock => exact ⟨rfl, rfl, rfl, hfin⟩
  | periodDec => exact ⟨rfl, rfl, rfl, hfin⟩
  | periodInc => exact ⟨rfl, rfl, rfl, hfin⟩
  | resetClock => exact ⟨rfl, rfl, rfl, hfin⟩
  | adjustClockBy delta => exact ⟨rfl, rfl, rfl, hfin⟩
  | clockTick => exact ⟨rfl, rfl, rfl, hfin⟩
  | endGame =>
      simp [available, hfin] at hav
  | addPenalty newId player teamId penaltyType duration =>
      simp [available, hfin] at hav
  | generateSummary summary => exact ⟨rfl, rfl, rfl, hfin⟩

/-- C3 witness: the frame property instantiated on a concrete finished state
and the clock-toggle event. -/
theorem finished_game_frame_witness :
    (step sFinished TrackerEvent.toggleClock).game.score = sFinished.game.score ∧
    (step sFinished TrackerEvent.toggleClock).game.stats = sFinished.game.stats ∧
    (step sFinished TrackerEvent.toggleClock).game.penalties =
      sFinished.game.penalties ∧
    (step sFinished TrackerEvent.toggleClock).game.status = GameStatus.finished :=
  finished_game_frame sFinished TrackerEvent.toggleClock rfl rfl

/-- C7: `handleAddPenalty` appends exactly one penalty whose start time is the
current clock and whose release time is the clock minus the duration, with no
clamping; concretely, duration 30 at clock 600 yields start 600 and release
570. -/
theorem handleAddPenalty_spec :
    (∀ (g : Game) (newId : String) (p : Player) (tid : String)
        (penaltyType : PenaltyType) (duration : Int) (clock : Int),
        (handleAddPenalty g newId p tid penaltyType duration clock).penalties =
          g.penalties ++
            [{ id := newId, playerId := p.id, teamId := tid, type := penaltyType,
               duration := duration, startTime := clock,
               releaseTime := clock - duration }] ∧
        (handleAddPenalty g newId p tid penaltyType duration clock).penalties.length =
          g.penalties.length + 1) ∧
    (handleAddPenalty g0 "pen1" playerH "h" PenaltyType.slashing 30 600).penalties =
      [{ id := "pen1", playerId := "ph", teamId := "h", type := PenaltyType.slashing,
         duration := 30, startTime := 600, releaseTime := 570 }] := by
  refine ⟨?_, by decide⟩
  intro g newId p tid penaltyType duration clock
  refine ⟨rfl, ?_⟩
  simp [handleAddPenalty]

/-- C9: `handleStatAdd` appends exactly one stat (the log grows by one entry
with all earlier entries preserved) and leaves the penalties, period, stored
game clock, status, and both rosters unchanged; a non-Goal type also leaves
the score unchanged. -/
theorem handleStatAdd_frame_spec :
    ∀ (g : Game) (newId : String) (p : Player) (tid : String) (t : StatType)
      (a : Option String) (c : Int),
      (handleStatAdd g newId p tid t a c).stats =
        g.stats ++ [{ id := newId, playerId := p.id, teamId := tid, type := t,
                      timestamp := c, assistingPlayerId := a }] ∧
      (handleStatAdd g newId p tid t a c).stats.length = g.stats.length + 1 ∧
      (handleStatAdd g newId p tid t a c).penalties = g.penalties ∧
      (handleStatAdd g newId p tid t a c).currentPeriod = g.currentPeriod ∧
      (handleStatAdd g newId p tid t a c).gameClock = g.gameClock ∧
      (handleStatAdd g newId p tid t a c).status = g.status ∧
      (handleStatAdd g newId p tid t a c).homeTeam.roster = g.homeTeam.roster ∧
      (handleStatAdd g newId p tid t a c).awayTeam.roster = g.awayTeam.roster ∧
      (t ≠ StatType.goal → (handleStatAdd g newId p tid t a c).score = g.score) := by
  intro g newId p tid t a c
  refine ⟨rfl, ?_, rfl, rfl, rfl, rfl, rfl, rfl, ?_⟩
  · simp [handleStatAdd]
  · intro ht
    rw [handleStatAdd_score]
    simp [ht]

/-- C9 witness: the frame property instantiated on a concrete shot
recording. -/
theorem handleStatAdd_frame_spec_witness :
    (handleStatAdd g0 "s1" playerH "h" StatType.shot none 650).stats =
      g0.stats ++ [{ id := "s1", playerId := playerH.id, teamId := "h",
                     type := StatType.shot, timestamp := 650,
                     assistingPlayerId := none }] ∧
    (handleStatAdd g0 "s1" playerH "h" StatType.shot none 650).stats.length =
      g0.stats.length + 1 ∧
    (handleStatAdd g0 "s1" playerH "h" StatType.shot none 650).penalties =
      g0.penalties ∧
    (handleStatAdd g0 "s1" playerH "h" StatType.shot none 650).currentPeriod =
      g0.currentPeriod ∧
    (handleStatAdd g0 "s1" playerH "h" StatType.shot none 650).gameClock =
      g0.gameClock ∧
    (handleStatAdd g0 "s1" playerH "h" StatType.shot none 650).status = g0.status ∧
    (handleStatAdd g0 "s1" playerH "h" StatType.shot none 650).homeTeam.roster =
      g0.homeTeam.roster ∧
    (handleStatAdd g0 "s1" playerH "h" StatType.shot none 650).awayTeam.roster =
      g0.awayTeam.roster ∧
    (StatType.shot ≠ StatType.goal →
      (handleStatAdd g0 "s1" playerH "h" StatType.shot none 650).score = g0.score) :=
  handleStatAdd_frame_spec g0 "s1" playerH "h" StatType.shot none 650

/-- C10: manual score adjustment clamps at zero — for non-negative scores and
a delta of plus or minus one the adjusted score stays non-negative, a
decrement at zero leaves zero — and it changes nothing besides the chosen
side's score. -/
theorem handleManualScoreChange_spec (g : Game) (side : TeamSide) (delta : Int)
    (hh : 0 ≤ g.score.home) (ha : 0 ≤ g.score.away)
    (hdelta : delta = 1 ∨ delta = -1) :
    (0 ≤ (handleManualScoreChange g side delta).score.home ∧
     0 ≤ (handleManualScoreChange g side delta).score.away) ∧
    (g.score.home = 0 →
      (handleManualScoreChange g TeamSide.home (-1)).score.home = 0) ∧
    (g.score.away = 0 →
      (handleManualScoreChange g TeamSide.away (-1)).score.away = 0) ∧
    (side = TeamSide.home →
      (handleManualScoreChange g side delta).score.away = g.score.away) ∧
    (side = TeamSide.away →
      (handleManualScoreChange g side delta).score.home = g.score.home) ∧
    (handleManualScoreChange g side delta).stats = g.stats ∧
    (handleManualScoreChange g side delta).penalties = g.penalties ∧
    (handleManualScoreChange g side delta).currentPeriod = g.currentPeriod ∧
    (handleManualScoreChange g side delta).gameClock = g.gameClock ∧
    (handleManualScoreChange g side delta).status = g.status ∧
    (handleManualScoreChange g side delta).homeTeam = g.homeTeam ∧
    (handleManualScoreChange g side delta).awayTeam = g.awayTeam := by
  refine ⟨?_, ?_, ?_, ?_, ?_, ?_⟩
  · cases side <;> simp [handleManualScoreChange] <;> omega
  · intro h0
    simp [handleManualScoreChange, h0]
  · intro h0
    simp [handleManualScoreChange, h0]
  · intro hs
    subst hs
    rfl
  · intro hs
    subst hs
    rfl
  · cases side <;> exact ⟨rfl, rfl, rfl, rfl, rfl, rfl, rfl⟩

/-- C10 witness: the clamping property instantiated on the fresh game (score
0-0) with a home decrement. -/
theorem handleManualScoreChange_spec_witness :
    ((0 ≤ (handleManualScoreChange g0 TeamSide.home (-1)).score.home ∧
      0 ≤ (handleManualScoreChange g0 TeamSide.home (-1)).score.away) ∧
     (g0.score.home = 0 →
       (handleManualScoreChange g0 TeamSide.home (-1)).score.home = 0) ∧
     (g0.score.away = 0 →
       (handleManualScoreChange g0 TeamSide.home (-1)).score.away = 0) ∧
     (TeamSide.home = TeamSide.home →
       (handleManualScoreChange g0 TeamSide.home (-1)).score.away = g0.score.away) ∧
     (TeamSide.home = TeamSide.away →
       (handleManualScoreChange g0 TeamSide.home (-1)).score.home = g0.score.home) ∧
     (handleManualScoreChange g0 TeamSide.home (-1)).stats = g0.stats ∧
     (handleManualScoreChange g0 TeamSide.home (-1)).penalties = g0.penalties ∧
     (handleManualScoreChange g0 TeamSide.home (-1)).currentPeriod =
       g0.currentPeriod ∧
     (handleManualScoreChange g0 TeamSide.home (-1)).gameClock = g0.gameClock ∧
     (handleManualScoreChange g0 TeamSide.home (-1)).status = g0.status ∧
     (handleManualScoreChange g0 TeamSide.home (-1)).homeTeam = g0.homeTeam ∧
     (handleManualScoreChange g0 TeamSide.home (-1)).awayTeam = g0.awayTeam) :=
  handleManualScoreChange_spec g0 TeamSide.home (-1) (by decide) (by decide)
    (Or.inr rfl)

/-- The integer grayscale value is the floor of the exact luma combination. -/
theorem luma_floor (r g b : Nat) :
    (299 * r + 587 * g + 114 * b) / 1000 =
      Nat.floor ((0.299 * (r : ℚ) + 0.587 * (g : ℚ) + 0.114 * (b : ℚ))) := by
  have h : (0.299 * (r : ℚ) + 0.587 * (g : ℚ) + 0.114 * (b : ℚ)) =
      ((299 * r + 587 * g + 114 * b : ℕ) : ℚ) / ((1000 : ℕ) : ℚ) := by
    push_cast
    ring
  rw [h, Nat.floor_div_eq_div]

/-- The detection loop yields no result exactly when no delivered frame's mean
difference exceeds the threshold. -/
theorem detect_none (rg : List Nat) (start : ℚ) (samples : List FrameSample) :
    detect rg start samples = none ↔
      ∀ f ∈ samples,
        averageDiff rg (toGrayscale f.frame) ≤ SENSITIVITY_THRESHOLD := by
  induction samples with
  | nil => simp [detect]
  | cons f fs ih =>
      simp only [detect]
      split_ifs with h
      · exact iff_of_false (fun hc => by simp at hc)
          (fun hall => absurd (hall f (List.mem_cons_self f fs)) (not_le.mpr h))
      · rw [ih]
        constructor
        · intro hall q hq
          rcases List.mem_cons.mp hq with rfl | hq2
          · exact not_lt.mp h
          · exact hall q hq2
        · intro hall q hq
          exact hall q (List.mem_cons_of_mem f hq)

/-- The detection loop yields a result exactly at the first frame whose mean
difference exceeds the threshold, with the rounded elapsed time from the
measurement start to that frame. -/
theorem detect_first (rg : List Nat) (start : ℚ) (samples : List FrameSample)
    (t : Int) :
    detect rg start samples = some t ↔
      ∃ pre f post, samples = pre ++ f :: post ∧
        (∀ q ∈ pre, averageDiff rg (toGrayscale q.frame) ≤ SENSITIVITY_THRESHOLD) ∧
        SENSITIVITY_THRESHOLD < averageDiff rg (toGrayscale f.frame) ∧
        t = jsRound (f.now - start) := by
  induction samples with
  | nil =>
      simp only [detect]
      constructor
      · intro hc
        simp at hc
      · rintro ⟨pre, q, post, habs, -⟩
        cases pre <;> simp at habs
  | cons f fs ih =>
      simp only [detect]
      split_ifs with h
      · constructor
        · intro hc
          exact ⟨[], f, fs, rfl, by simp, h, (Option.some.inj hc).symm⟩
        · rintro ⟨pre, q, post, heq, hpre, hq, ht⟩
          cases pre with
          | nil =>
              simp only [List.nil_append, List.cons.injEq] at heq
              obtain ⟨rfl, rfl⟩ := heq
              exact congrArg some ht.symm
          | cons p pre2 =>
              simp only [List.cons_append, List.cons.injEq] at heq
              obtain ⟨rfl, -⟩ := heq
              exact absurd h
                (not_lt.mpr (hpre f (List.mem_cons_self f pre2)))
      · rw [ih]
        constructor
        · rintro ⟨pre, q, post, heq, hpre, hq, ht⟩
          refine ⟨f :: pre, q, post, by rw [heq, List.cons_append], ?_, hq, ht⟩
          intro x hx
          rcases List.mem_cons.mp hx with rfl | hx2
          · exact not_lt.mp h
          · exact hpre x hx2
        · rintro ⟨pre, q, post, heq, hpre, hq, ht⟩
          cases pre with
          | nil =>
              simp only [List.nil_append, List.cons.injEq] at heq
              obtain ⟨rfl, rfl⟩ := heq
              exact absurd hq h
          | cons p pre2 =>
              simp only [List.cons_append, List.cons.injEq] at heq
              obtain ⟨rfl, hfs⟩ := heq
              exact ⟨pre2, q, post, hfs,
                fun x hx => hpre x (List.mem_cons_of_mem _ hx), hq, ht⟩

/-- C8: the reference frame is converted to grayscale luma with coefficients
0.299, 0.587, 0.114 (floor-truncated on storage); the measurement produces no
result — the polling loop keeps re-arming, with no timeout — exactly when no
delivered frame's mean absolute luma difference against the reference exceeds
the fixed threshold of 10; and it transitions to a result exactly at the
first frame exceeding the threshold, reporting the rounded elapsed time from
the measurement start. -/
theorem startMotionDetection_spec :
    (∀ p : Pixel, toGrayscale [p] =
        [Nat.floor ((0.299 * (p.r : ℚ) + 0.587 * (p.g : ℚ) + 0.114 * (p.b : ℚ)))]) ∧
    (∀ (ref : List Pixel) (start : ℚ) (samples : List FrameSample),
        startMotionDetection ref start samples = none ↔
          ∀ f ∈ samples,
            averageDiff (toGrayscale ref) (toGrayscale f.frame) ≤
              SENSITIVITY_THRESHOLD) ∧
    (∀ (ref : List Pixel) (start : ℚ) (samples : List FrameSample) (t : Int),
        startMotionDetection ref start samples = some t ↔
          ∃ pre f post, samples = pre ++ f :: post ∧
            (∀ q ∈ pre,
              averageDiff (toGrayscale ref) (toGrayscale q.frame) ≤
                SENSITIVITY_THRESHOLD) ∧
            SENSITIVITY_THRESHOLD <
              averageDiff (toGrayscale ref) (toGrayscale f.frame) ∧
            t = jsRound (f.now - start)) := by
  refine ⟨?_, ?_, ?_⟩
  · intro p
    simp only [toGrayscale, List.map_cons, List.map_nil, luma_floor]
  · intro ref start samples
    exact detect_none (toGrayscale ref) start samples
  · intro ref start samples t
    exact detect_first (toGrayscale ref) start samples t

end LaxStats
